import Mathlib

/-!
Verification development for the auto-sizes library (src/autosizes.js, v1.0.3).

The JavaScript source is shallowly embedded: DOM elements become explicit
records of the fields the library reads and writes (rendered width, the
cached `_autosizesWidth` property, the attribute map and the class list),
event dispatch becomes a listener function describing the net effect of
dispatching `beforeSizesUpdate`, and the frame batcher and the debounced
resize trigger become explicit state-transition systems.  Machine numbers
are modelled as `Int` (widths) and `Nat` (times); JavaScript truthiness of
a number is `≠ 0`.
-/

/-- Configuration record, mirroring the `defaults` object of the source
(`targetElementClass`, `processedElementClass`, `sizesAttr`, `minSize`,
`init`, `resizeDebounce`). -/
structure Config where
  targetElementClass : String
  processedElementClass : String
  sizesAttr : String
  minSize : Int
  init : Bool
  resizeDebounce : Nat
deriving DecidableEq

/-- The `defaults` object of the source. -/
def defaults : Config :=
  { targetElementClass := "autosizes"
    processedElementClass := "autosized"
    sizesAttr := "sizes"
    minSize := 40
    init := true
    resizeDebounce := 99 }

/-- A user override object (`window.autoSizesConfig`): each key may be
absent, in which case the spread `{...defaults, ...userConfig}` keeps the
default. -/
structure UserConfig where
  targetElementClass : Option String
  processedElementClass : Option String
  sizesAttr : Option String
  minSize : Option Int
  init : Option Bool
  resizeDebounce : Option Nat
deriving DecidableEq

/-- Embedding of `initConfig`: merge the user overrides over the defaults,
`config = {...defaults, ...userConfig}`. -/
def initConfig (u : UserConfig) : Config :=
  { targetElementClass := u.targetElementClass.getD defaults.targetElementClass
    processedElementClass := u.processedElementClass.getD defaults.processedElementClass
    sizesAttr := u.sizesAttr.getD defaults.sizesAttr
    minSize := u.minSize.getD defaults.minSize
    init := u.init.getD defaults.init
    resizeDebounce := u.resizeDebounce.getD defaults.resizeDebounce }

/-- The empty override object (`window.autoSizesConfig` unset). -/
def noOverrides : UserConfig :=
  { targetElementClass := none
    processedElementClass := none
    sizesAttr := none
    minSize := none
    init := none
    resizeDebounce := none }

/-- JavaScript truthiness of an optional number: `undefined`, `0` (and
`NaN`, not representable over `Int`) are falsy. -/
def truthyOpt (w : Option Int) : Bool :=
  w.getD 0 != 0

/-- The state of a DOM element as far as the library reads and writes it:
`offsetWidth` (rendered width), the expando property `_autosizesWidth`
(`none` when never set), the attribute map and the class list. -/
structure ElemState where
  offsetWidth : Int
  autosizesWidth : Option Int
  attrs : List (String × String)
  classes : List String
deriving DecidableEq

/-- Model of `elem.setAttribute(name, v)`: replace the value of `name` if present,
else append the attribute. -/
def setAttribute : List (String × String) → String → String → List (String × String)
  | [], n, v => [(n, v)]
  | (a, b) :: rest, n, v =>
    if a = n then (a, v) :: rest else (a, b) :: setAttribute rest n v

/-- Model of `elem.getAttribute(name)`: the value of the first attribute named
`name`, or `none` (JavaScript `null`) when absent. -/
def getAttribute : List (String × String) → String → Option String
  | [], _ => none
  | (a, b) :: rest, n => if a = n then some b else getAttribute rest n

/-- Model of `elem.classList.add(c)`: append the class when it is not yet present. -/
def classListAdd (cs : List String) (c : String) : List String :=
  if c ∈ cs then cs else cs ++ [c]

/-- The loop of `getWidth`:
`while (width < config.minSize && parent && !elem._autosizesWidth) { width = parent.offsetWidth; parent = parent.parentNode; }`.
The ancestor chain is the list of the successive containers' rendered
widths, starting at the immediate parent. -/
def getWidthLoop (cfg : Config) (cached : Option Int) : Int → List Int → Int
  | width, [] => width
  | width, p :: rest =>
    if width < cfg.minSize ∧ truthyOpt cached = false then
      getWidthLoop cfg cached p rest
    else width

/-- Embedding of `getWidth(elem, parent, width)` of the source:
`width = width || elem.offsetWidth;` then the traversal loop. -/
def getWidth (cfg : Config) (elem : ElemState) (parents : List Int)
    (width : Option Int) : Int :=
  getWidthLoop cfg elem.autosizesWidth
    (if truthyOpt width then width.getD 0 else elem.offsetWidth) parents

/-- Element of the worked example: rendered width 10, never sized. -/
def exampleElem10 : ElemState :=
  { offsetWidth := 10, autosizesWidth := none
    attrs := [("sizes", "auto")], classes := ["autosizes"] }

/-- Claim C3: the width resolver starts from the supplied pre-measured
width (else the element's rendered width) and, while the current width is
below `minSize`, a container exists and the element has no cached width,
replaces the width with the container's rendered width and advances to the
container's parent; it returns the last width reached, possibly still
below `minSize` when traversal is exhausted.  In particular an element
with `offsetWidth` 10 under parents of widths 5 and 300 resolves, at
`minSize` 40, to 300; and under parents of widths 5 and 20 it resolves to
20, still below `minSize`. -/
theorem C3_width_resolver_characterization :
    (∀ cfg elem parents w, getWidth cfg elem parents w =
      getWidthLoop cfg elem.autosizesWidth
        (if truthyOpt w then w.getD 0 else elem.offsetWidth) parents)
    ∧ (∀ cfg cached width, getWidthLoop cfg cached width [] = width)
    ∧ (∀ cfg cached width p rest,
        getWidthLoop cfg cached width (p :: rest) =
          if width < cfg.minSize ∧ truthyOpt cached = false then
            getWidthLoop cfg cached p rest
          else width)
    ∧ getWidth defaults exampleElem10 [5, 300] none = 300
    ∧ getWidth defaults exampleElem10 [5, 20] none = 20 := by
  refine ⟨fun _ _ _ _ => rfl, fun _ _ _ => rfl, fun _ _ _ _ _ => rfl, by decide, by decide⟩

/-- The observable outcome of dispatching the cancelable `beforeSizesUpdate`
event: the `defaultPrevented` flag and the (possibly listener-mutated)
`detail.width` once the synchronous dispatch returns. -/
structure BeforeResult where
  defaultPrevented : Bool
  width : Int
deriving DecidableEq

/-- The detail `{width, sizes}` of the informational `afterSizesUpdate`
event. -/
structure AfterDetail where
  width : Int
  sizes : String
deriving DecidableEq

/-- How a single-element update ends: detached element (`noParent`),
vetoed `beforeSizesUpdate`, a no-op (falsy width or width equal to the
cache), or a commit carrying the `afterSizesUpdate` detail.  Only
`committed` fires the after event. -/
inductive UpdateResult where
  | noParent : UpdateResult
  | vetoed : UpdateResult
  | noop : UpdateResult
  | committed : AfterDetail → UpdateResult
deriving DecidableEq

/-- Whether the `afterSizesUpdate` event fired during the update. -/
def firedAfter : UpdateResult → Bool
  | UpdateResult.committed _ => true
  | _ => false

/-- Final element state of an update, its result, and the `setAttribute`
calls it performed, in order. -/
structure UpdateOutcome where
  elem : ElemState
  result : UpdateResult
  writes : List (String × String)
deriving DecidableEq

/-- Embedding of `hasSizesAuto(elem)`: the configured size attribute currently reads
the literal string `"auto"`. -/
def hasSizesAuto (cfg : Config) (e : ElemState) : Bool :=
  getAttribute e.attrs cfg.sizesAttr == some "auto"

/-- Embedding of `hasPrefix(attr)`: `attr.includes('-') && attr !== 'sizes'`. -/
def hasPrefix (attr : String) : Bool :=
  attr.data.contains ('-') && attr != "sizes"

/-- Embedding of `getBaseAttr(attr)`: the last `-`-separated part of a prefixed name
(`'data-sizes' -> 'sizes'`), else the name itself. -/
def getBaseAttr (attr : String) : String :=
  if hasPrefix attr then List.getLastD (attr.splitOn "-") attr else attr

/-- Embedding of `setSizesAttr(elem, sizesValue)`: write the configured attribute and,
when the configured name is prefixed, also the bare base attribute with
the same value.  Also returns the list of attribute writes performed. -/
def setSizesAttr (cfg : Config) (e : ElemState) (v : String) :
    ElemState × List (String × String) :=
  let e1 := { e with attrs := setAttribute e.attrs cfg.sizesAttr v }
  if hasPrefix cfg.sizesAttr then
    ({ e1 with attrs := setAttribute e1.attrs (getBaseAttr cfg.sizesAttr) v },
      [(cfg.sizesAttr, v), (getBaseAttr cfg.sizesAttr, v)])
  else (e1, [(cfg.sizesAttr, v)])

/-- Result of the commit body: final element state, the attribute writes
performed, and the `afterSizesUpdate` detail it triggers. -/
structure CommitResult where
  elem : ElemState
  writes : List (String × String)
  after : AfterDetail
deriving DecidableEq

/-- The body of `sizeElement` (the function wrapped by `rAFIt`; the frame
batcher that defers it is modelled separately and the commit is composed
inline here): cache the width on the element, format `"<width>px"`, write
the size attribute only when the element's configured attribute reads
`"auto"`, add the processed class when configured, and trigger
`afterSizesUpdate {width, sizes}`.  The `parent` and `event` parameters of
the source are unused by the v1.0.3 body and are omitted. -/
def sizeElement (cfg : Config) (e : ElemState) (width : Int) : CommitResult :=
  let e1 := { e with autosizesWidth := some width }
  let widthPx := toString width ++ "px"
  let step := if hasSizesAuto cfg e1 = true then setSizesAttr cfg e1 widthPx else (e1, [])
  let e2 := if cfg.processedElementClass ≠ "" then
      { step.1 with classes := classListAdd step.1.classes cfg.processedElementClass }
    else step.1
  { elem := e2, writes := step.2, after := { width := width, sizes := widthPx } }

/-- Embedding of `getSizeElement(elem, dataAttr, width)`, the single-element update:
bail out when detached, resolve the width, dispatch `beforeSizesUpdate`
(modelled by `listener`, mapping the dispatched `detail.width` and
`dataAttr` to the dispatch outcome), stop on veto, take the possibly
modified width, and commit only when it is truthy and differs from the
cached `_autosizesWidth`. -/
def getSizeElement (cfg : Config) (e : ElemState) (parents : List Int)
    (listener : Int → Bool → BeforeResult) (dataAttr : Bool)
    (width : Option Int) : UpdateOutcome :=
  if parents = [] then { elem := e, result := UpdateResult.noParent, writes := [] }
  else
    let w := getWidth cfg e parents width
    let ev := listener w dataAttr
    if ev.defaultPrevented = true then { elem := e, result := UpdateResult.vetoed, writes := [] }
    else if ev.width ≠ 0 ∧ e.autosizesWidth ≠ some ev.width then
      let c := sizeElement cfg e ev.width
      { elem := c.elem, result := UpdateResult.committed c.after, writes := c.writes }
    else { elem := e, result := UpdateResult.noop, writes := [] }

/-- A listener that neither vetoes nor mutates the width (no registered
listener, or a purely observing one). -/
def idListener : Int → Bool → BeforeResult :=
  fun w _ => { defaultPrevented := false, width := w }

/-- A listener that calls `event.preventDefault()` and leaves the width
alone. -/
def vetoListener : Int → Bool → BeforeResult :=
  fun w _ => { defaultPrevented := true, width := w }

/-- Reading an attribute just written returns the written value. -/
theorem getAttribute_setAttribute_same (attrs : List (String × String))
    (n v : String) : getAttribute (setAttribute attrs n v) n = some v := by
  induction attrs with
  | nil => simp [setAttribute, getAttribute]
  | cons hd tl ih =>
    obtain ⟨a, b⟩ := hd
    by_cases h : a = n <;> simp [setAttribute, getAttribute, h, ih]

/-- Writing one attribute leaves every other attribute unchanged. -/
theorem getAttribute_setAttribute_other (attrs : List (String × String))
    (n v m : String) (h : m ≠ n) :
    getAttribute (setAttribute attrs n v) m = getAttribute attrs m := by
  induction attrs with
  | nil => simp [setAttribute, getAttribute, Ne.symm h]
  | cons hd tl ih =>
    obtain ⟨a, b⟩ := hd
    by_cases ha : a = n
    · subst ha
      simp [setAttribute, getAttribute, Ne.symm h]
    · simp [setAttribute, getAttribute, ha, ih]

/-- After `setSizesAttr`, the configured attribute holds the written
value (whether or not a base attribute was written afterwards). -/
theorem getAttribute_setSizesAttr (cfg : Config) (e : ElemState) (v : String) :
    getAttribute (setSizesAttr cfg e v).1.attrs cfg.sizesAttr = some v := by
  unfold setSizesAttr
  by_cases hpre : hasPrefix cfg.sizesAttr = true
  · by_cases hb : getBaseAttr cfg.sizesAttr = cfg.sizesAttr
    · simp [hpre, hb, getAttribute_setAttribute_same]
    · have hb' : cfg.sizesAttr ≠ getBaseAttr cfg.sizesAttr := fun hh => hb hh.symm
      simp [hpre, getAttribute_setAttribute_other _ _ _ _ hb',
        getAttribute_setAttribute_same]
  · simp [hpre, getAttribute_setAttribute_same]

/-- Claim C10: a supplied pre-measured width of 0 is falsy, so both the
width resolver and the single-element update behave exactly as if no
width had been supplied: the element's own rendered width is the starting
width. -/
theorem C10_zero_width_like_absent :
    (∀ cfg elem parents, getWidth cfg elem parents (some 0) =
      getWidth cfg elem parents none)
    ∧ (∀ cfg e parents listener dataAttr,
        getSizeElement cfg e parents listener dataAttr (some 0) =
          getSizeElement cfg e parents listener dataAttr none) :=
  ⟨fun _ _ _ => rfl, fun _ _ _ _ _ => rfl⟩

/-- Claim C4: when a `beforeSizesUpdate` listener vetoes, the update stops
completely: the element state (attributes, classes, cached width) is
unchanged, no attribute write is performed, and no `afterSizesUpdate`
event fires, whatever width was computed. -/
theorem C4_veto_stops_update (cfg : Config) (e : ElemState) (parents : List Int)
    (listener : Int → Bool → BeforeResult) (dataAttr : Bool) (w0 : Option Int)
    (hp : parents ≠ [])
    (hv : (listener (getWidth cfg e parents w0) dataAttr).defaultPrevented = true) :
    getSizeElement cfg e parents listener dataAttr w0 =
      { elem := e, result := UpdateResult.vetoed, writes := [] }
    ∧ firedAfter (getSizeElement cfg e parents listener dataAttr w0).result = false := by
  have h : getSizeElement cfg e parents listener dataAttr w0 =
      { elem := e, result := UpdateResult.vetoed, writes := [] } := by
    unfold getSizeElement
    simp [hp, hv]
  exact ⟨h, by rw [h]; rfl⟩

/-- Element of width 450 carrying the marker attribute and class. -/
def exampleElem450 : ElemState :=
  { offsetWidth := 450, autosizesWidth := none
    attrs := [("sizes", "auto")], classes := ["autosizes"] }

/-- Witness for C4 at a concrete input: a vetoing listener on a 450px
element leaves everything untouched. -/
theorem C4_veto_stops_update_witness :
    (([800] : List Int) ≠ []
      ∧ (vetoListener (getWidth defaults exampleElem450 [800] none) false).defaultPrevented = true)
    ∧ (getSizeElement defaults exampleElem450 [800] vetoListener false none =
        { elem := exampleElem450, result := UpdateResult.vetoed, writes := [] }
      ∧ firedAfter (getSizeElement defaults exampleElem450 [800] vetoListener false none).result = false) :=
  ⟨⟨by decide, by decide⟩,
    C4_veto_stops_update defaults exampleElem450 [800] vetoListener false none
      (by decide) (by decide)⟩

/-- Unfolding of a committing update: with an attached parent, a
non-vetoing dispatch yielding width `X`, `X` truthy and different from
the cache, `getSizeElement` performs the commit of `X`. -/
theorem update_commits (cfg : Config) (e : ElemState) (parents : List Int)
    (listener : Int → Bool → BeforeResult) (dataAttr : Bool) (w0 : Option Int) (X : Int)
    (hp : parents ≠ [])
    (hl : listener (getWidth cfg e parents w0) dataAttr =
      { defaultPrevented := false, width := X })
    (hX : X ≠ 0) (hc : e.autosizesWidth ≠ some X) :
    getSizeElement cfg e parents listener dataAttr w0 =
      { elem := (sizeElement cfg e X).elem,
        result := UpdateResult.committed (sizeElement cfg e X).after,
        writes := (sizeElement cfg e X).writes } := by
  unfold getSizeElement
  simp [hp, hl, hX, hc]

/-- Unfolding of a no-op update: a non-vetoing dispatch whose resulting
width equals the cached width leaves everything unchanged. -/
theorem update_noop_of_cached (cfg : Config) (e : ElemState) (parents : List Int)
    (listener : Int → Bool → BeforeResult) (dataAttr : Bool) (w0 : Option Int) (X : Int)
    (hp : parents ≠ [])
    (hl : listener (getWidth cfg e parents w0) dataAttr =
      { defaultPrevented := false, width := X })
    (hcache : e.autosizesWidth = some X) :
    getSizeElement cfg e parents listener dataAttr w0 =
      { elem := e, result := UpdateResult.noop, writes := [] } := by
  unfold getSizeElement
  simp [hp, hl, hcache]

/-- The commit caches the committed width on the element. -/
theorem sizeElement_cache (cfg : Config) (e : ElemState) (w : Int) :
    (sizeElement cfg e w).elem.autosizesWidth = some w := by
  unfold sizeElement setSizesAttr
  cases ha : hasSizesAuto cfg { e with autosizesWidth := some w } <;>
    simp only [ha, if_true, if_false, Bool.false_eq_true] <;> split_ifs <;> rfl

/-- The commit never touches the rendered width. -/
theorem sizeElement_offsetWidth (cfg : Config) (e : ElemState) (w : Int) :
    (sizeElement cfg e w).elem.offsetWidth = e.offsetWidth := by
  unfold sizeElement setSizesAttr
  cases ha : hasSizesAuto cfg { e with autosizesWidth := some w } <;>
    simp only [ha, if_true, if_false, Bool.false_eq_true] <;> split_ifs <;> rfl

/-- The detail of the `afterSizesUpdate` event of a commit. -/
theorem sizeElement_after (cfg : Config) (e : ElemState) (w : Int) :
    (sizeElement cfg e w).after = { width := w, sizes := toString w ++ "px" } := rfl

/-- When the element's configured attribute reads `"auto"`, the commit's
attribute map is exactly the one produced by `setSizesAttr`, and its
write list is the one reported by `setSizesAttr`. -/
theorem sizeElement_attrs_eq (cfg : Config) (e : ElemState) (w : Int)
    (ha : hasSizesAuto cfg e = true) :
    (sizeElement cfg e w).elem.attrs =
      (setSizesAttr cfg { e with autosizesWidth := some w } (toString w ++ "px")).1.attrs
    ∧ (sizeElement cfg e w).writes =
      (setSizesAttr cfg { e with autosizesWidth := some w } (toString w ++ "px")).2 := by
  have ha' : hasSizesAuto cfg { e with autosizesWidth := some w } = true := ha
  unfold sizeElement
  simp only [ha', if_true]
  refine ⟨by split <;> rfl, by trivial⟩

/-- Claim C9: when a `beforeSizesUpdate` listener overrides `detail.width`
with `X` (and does not veto), the committed attribute value is `"Xpx"`
(the listener-modified width, not the originally resolved one), and the
`afterSizesUpdate` event carries that same width and formatted string.
Hypotheses: the element is attached, `X` is truthy and differs from the
cached width (so the update commits at all), and the element's configured
attribute reads `"auto"` (so the attribute write is performed). -/
theorem C9_listener_width_wins (cfg : Config) (e : ElemState) (parents : List Int)
    (listener : Int → Bool → BeforeResult) (dataAttr : Bool) (w0 : Option Int) (X : Int)
    (hp : parents ≠ [])
    (hl : listener (getWidth cfg e parents w0) dataAttr =
      { defaultPrevented := false, width := X })
    (hX : X ≠ 0) (hc : e.autosizesWidth ≠ some X)
    (ha : hasSizesAuto cfg e = true) :
    getAttribute (getSizeElement cfg e parents listener dataAttr w0).elem.attrs cfg.sizesAttr
      = some (toString X ++ "px")
    ∧ (getSizeElement cfg e parents listener dataAttr w0).result
      = UpdateResult.committed { width := X, sizes := toString X ++ "px" } := by
  rw [update_commits cfg e parents listener dataAttr w0 X hp hl hX hc]
  refine ⟨?_, by rw [sizeElement_after]⟩
  rw [(sizeElement_attrs_eq cfg e X ha).1]
  exact getAttribute_setSizesAttr cfg _ _

/-- A listener that overrides the computed width with the constant 777. -/
def mutListener : Int → Bool → BeforeResult :=
  fun _ _ => { defaultPrevented := false, width := 777 }

/-- Witness for C9 at a concrete input: a listener forcing width 777 on a
450px element commits the attribute value formatted from 777. -/
theorem C9_listener_width_wins_witness :
    (([800] : List Int) ≠ []
      ∧ mutListener (getWidth defaults exampleElem450 [800] none) false =
          { defaultPrevented := false, width := 777 }
      ∧ (777 : Int) ≠ 0
      ∧ exampleElem450.autosizesWidth ≠ some 777
      ∧ hasSizesAuto defaults exampleElem450 = true)
    ∧ (getAttribute (getSizeElement defaults exampleElem450 [800] mutListener false none).elem.attrs
          defaults.sizesAttr = some (toString (777 : Int) ++ "px")
      ∧ (getSizeElement defaults exampleElem450 [800] mutListener false none).result
          = UpdateResult.committed { width := 777, sizes := toString (777 : Int) ++ "px" }) :=
  ⟨⟨by decide, by decide, by decide, by decide, by decide⟩,
    C9_listener_width_wins defaults exampleElem450 [800] mutListener false none 777
      (by decide) (by decide) (by decide) (by decide) (by decide)⟩

/-- The traversal loop is a no-op when the starting width already meets
`minSize`. -/
theorem getWidthLoop_not_lt (cfg : Config) (cached : Option Int) (width : Int)
    (parents : List Int) (h : ¬ width < cfg.minSize) :
    getWidthLoop cfg cached width parents = width := by
  cases parents with
  | nil => rfl
  | cons p rest => simp [getWidthLoop, h]

/-- With no pre-measured width, the resolver starts from the element's
rendered width. -/
theorem getWidth_none (cfg : Config) (e : ElemState) (parents : List Int) :
    getWidth cfg e parents none =
      getWidthLoop cfg e.autosizesWidth e.offsetWidth parents := rfl

/-- Claim C5: updating an element twice with no intervening layout change
(same rendered width, no listener mutation or veto) performs exactly one
attribute write: the first call commits and writes the configured
attribute once (non-prefixed attribute name), the second call is a no-op
because the resolved width equals the cached last-applied width, writing
nothing and leaving the element state unchanged.  Hypotheses: attached
element, truthy rendered width at least `minSize` (so both calls resolve
that same width), not yet cached, configured attribute reads `"auto"`. -/
theorem C5_update_idempotent (cfg : Config) (e : ElemState) (parents : List Int)
    (hp : parents ≠ [])
    (hw : e.offsetWidth ≠ 0)
    (hmin : ¬ e.offsetWidth < cfg.minSize)
    (hne : e.autosizesWidth ≠ some e.offsetWidth)
    (ha : hasSizesAuto cfg e = true)
    (hnp : hasPrefix cfg.sizesAttr = false) :
    (getSizeElement cfg e parents idListener false none).writes =
      [(cfg.sizesAttr, toString e.offsetWidth ++ "px")]
    ∧ getSizeElement cfg (getSizeElement cfg e parents idListener false none).elem
        parents idListener false none =
      { elem := (getSizeElement cfg e parents idListener false none).elem,
        result := UpdateResult.noop, writes := [] } := by
  have hres : getWidth cfg e parents none = e.offsetWidth := by
    rw [getWidth_none]
    exact getWidthLoop_not_lt cfg _ _ parents hmin
  have hl : idListener (getWidth cfg e parents none) false =
      { defaultPrevented := false, width := e.offsetWidth } := by
    rw [hres]
    rfl
  have h1 := update_commits cfg e parents idListener false none e.offsetWidth hp hl hw hne
  constructor
  · rw [h1]
    show (sizeElement cfg e e.offsetWidth).writes = _
    rw [(sizeElement_attrs_eq cfg e e.offsetWidth ha).2]
    unfold setSizesAttr
    simp [hnp]
  · have hcache : (getSizeElement cfg e parents idListener false none).elem.autosizesWidth
        = some e.offsetWidth := by
      rw [h1]
      exact sizeElement_cache cfg e e.offsetWidth
    have hoff : (getSizeElement cfg e parents idListener false none).elem.offsetWidth
        = e.offsetWidth := by
      rw [h1]
      exact sizeElement_offsetWidth cfg e e.offsetWidth
    have hres1 : getWidth cfg (getSizeElement cfg e parents idListener false none).elem
        parents none = e.offsetWidth := by
      rw [getWidth_none, hoff]
      exact getWidthLoop_not_lt cfg _ _ parents hmin
    have hl1 : idListener
        (getWidth cfg (getSizeElement cfg e parents idListener false none).elem parents none)
        false = { defaultPrevented := false, width := e.offsetWidth } := by
      rw [hres1]
      rfl
    exact update_noop_of_cached cfg _ parents idListener false none e.offsetWidth hp hl1 hcache

/-- Witness for C5 at a concrete input: the 450px marker element commits
once; the immediately repeated update is a no-op. -/
theorem C5_update_idempotent_witness :
    (([800] : List Int) ≠ []
      ∧ exampleElem450.offsetWidth ≠ 0
      ∧ ¬ exampleElem450.offsetWidth < defaults.minSize
      ∧ exampleElem450.autosizesWidth ≠ some exampleElem450.offsetWidth
      ∧ hasSizesAuto defaults exampleElem450 = true
      ∧ hasPrefix defaults.sizesAttr = false)
    ∧ ((getSizeElement defaults exampleElem450 [800] idListener false none).writes =
        [(defaults.sizesAttr, toString exampleElem450.offsetWidth ++ "px")]
      ∧ getSizeElement defaults
          (getSizeElement defaults exampleElem450 [800] idListener false none).elem
          [800] idListener false none =
        { elem := (getSizeElement defaults exampleElem450 [800] idListener false none).elem,
          result := UpdateResult.noop, writes := [] }) :=
  ⟨⟨by decide, by decide, by decide, by decide, by decide, by decide⟩,
    C5_update_idempotent defaults exampleElem450 [800]
      (by decide) (by decide) (by decide) (by decide) (by decide) (by decide)⟩

/-- Claim C8: committing width `w` writes the configured size attribute
as the integer followed by `"px"`; when the configured name carries a
hyphenated prefix (and is not the bare literal `"sizes"`), the bare
suffix attribute is also written with the same value; when it does not,
only that single attribute write happens and every other attribute is
untouched. -/
theorem C8_attr_write_contract (cfg : Config) (e : ElemState) (w : Int)
    (ha : hasSizesAuto cfg e = true) :
    getAttribute (sizeElement cfg e w).elem.attrs cfg.sizesAttr = some (toString w ++ "px")
    ∧ ( hasPrefix cfg.sizesAttr = true →
        getAttribute (sizeElement cfg e w).elem.attrs (getBaseAttr cfg.sizesAttr)
          = some (toString w ++ "px"))
    ∧ ( hasPrefix cfg.sizesAttr = false →
        (sizeElement cfg e w).writes = [(cfg.sizesAttr, toString w ++ "px")]
        ∧ ∀ a, a ≠ cfg.sizesAttr →
            getAttribute (sizeElement cfg e w).elem.attrs a = getAttribute e.attrs a) := by
  obtain ⟨hattrs, hwrites⟩ := sizeElement_attrs_eq cfg e w ha
  refine ⟨?_, ?_, ?_⟩
  · rw [hattrs]
    exact getAttribute_setSizesAttr cfg _ _
  · intro hpre
    rw [hattrs]
    unfold setSizesAttr
    simp only [hpre, if_true]
    exact getAttribute_setAttribute_same _ _ _
  · intro hpre
    refine ⟨?_, ?_⟩
    · rw [hwrites]
      unfold setSizesAttr
      simp [hpre]
    · intro a haneq
      rw [hattrs]
      unfold setSizesAttr
      simp only [hpre, Bool.false_eq_true, if_false]
      exact getAttribute_setAttribute_other _ _ _ _ haneq

/-- Configuration with the prefixed attribute name of the worked
example. -/
def cfgDataSizes : Config :=
  { defaults with sizesAttr := "data-sizes" }

/-- Marker element for the prefixed-attribute example. -/
def exampleElemData : ElemState :=
  { offsetWidth := 450, autosizesWidth := none
    attrs := [("data-sizes", "auto")], classes := ["autosizes"] }

/-- Witness for C8 at the claim's concrete inputs: committing width 450
with `sizesAttr = "data-sizes"` (both attributes written), and with
`sizesAttr = "sizes"` (exactly one write). -/
theorem C8_attr_write_contract_witness :
    (hasSizesAuto cfgDataSizes exampleElemData = true
      ∧ hasSizesAuto defaults exampleElem450 = true)
    ∧ (getAttribute (sizeElement cfgDataSizes exampleElemData 450).elem.attrs
          cfgDataSizes.sizesAttr = some (toString (450 : Int) ++ "px")
      ∧ ( hasPrefix cfgDataSizes.sizesAttr = true →
          getAttribute (sizeElement cfgDataSizes exampleElemData 450).elem.attrs
            (getBaseAttr cfgDataSizes.sizesAttr) = some (toString (450 : Int) ++ "px"))
      ∧ ( hasPrefix cfgDataSizes.sizesAttr = false →
          (sizeElement cfgDataSizes exampleElemData 450).writes =
            [(cfgDataSizes.sizesAttr, toString (450 : Int) ++ "px")]
          ∧ ∀ a, a ≠ cfgDataSizes.sizesAttr →
              getAttribute (sizeElement cfgDataSizes exampleElemData 450).elem.attrs a =
                getAttribute exampleElemData.attrs a))
    ∧ (getAttribute (sizeElement defaults exampleElem450 450).elem.attrs
          defaults.sizesAttr = some (toString (450 : Int) ++ "px")
      ∧ ( hasPrefix defaults.sizesAttr = true →
          getAttribute (sizeElement defaults exampleElem450 450).elem.attrs
            (getBaseAttr defaults.sizesAttr) = some (toString (450 : Int) ++ "px"))
      ∧ ( hasPrefix defaults.sizesAttr = false →
          (sizeElement defaults exampleElem450 450).writes =
            [(defaults.sizesAttr, toString (450 : Int) ++ "px")]
          ∧ ∀ a, a ≠ defaults.sizesAttr →
              getAttribute (sizeElement defaults exampleElem450 450).elem.attrs a =
                getAttribute exampleElem450.attrs a)) :=
  ⟨⟨by decide, by decide⟩,
    C8_attr_write_contract cfgDataSizes exampleElemData 450 (by decide),
    C8_attr_write_contract defaults exampleElem450 450 (by decide)⟩

/-- An element right after a first committed update of width 450 (the
configured attribute reads `"450px"`, the processed class is present, the
cache holds 450) whose rendered width has since changed to 600 — the
state reached after a window resize. -/
def resizedElem : ElemState :=
  { offsetWidth := 600, autosizesWidth := some 450
    attrs := [("sizes", "450px")], classes := ["autosizes", "autosized"] }

/-- Claim C1 evaluated at the failing input: on the resized element the
non-vetoed update commits and mutates the cached last-applied width from
450 to 600, yet no write reaches the DOM — the attribute map and the
class list are unchanged and no `setAttribute` call happens, because
`hasSizesAuto` is false once the attribute reads a pixel value and the
processed class is already present.  This contradicts the claimed
"mutated if and only if a write actually reached the DOM" invariant;
CHANGELOG 1.0.4 records the underlying `hasSizesAuto()` gate as a bug. -/
theorem C1_cache_mutated_without_dom_write :
    (getSizeElement defaults resizedElem [800] idListener false none).elem.autosizesWidth
      = some 600
    ∧ resizedElem.autosizesWidth = some 450
    ∧ (getSizeElement defaults resizedElem [800] idListener false none).elem.attrs
      = resizedElem.attrs
    ∧ (getSizeElement defaults resizedElem [800] idListener false none).elem.classes
      = resizedElem.classes
    ∧ (getSizeElement defaults resizedElem [800] idListener false none).writes = [] := by
  decide

/-- Claim C2 evaluated at the failing input: the Sized → Sized update of
the resized element does re-commit (the after detail carries width 600
and the formatted string "600px"), but the configured size attribute is
not written again: it still reads "450px" and the update performed no
attribute write.  CHANGELOG 1.0.4 records exactly this as a critical bug
("resize events were not recalculating sizes after initial load"). -/
theorem C2_recommit_skips_attribute_write :
    (getSizeElement defaults resizedElem [800] idListener false none).result
      = UpdateResult.committed { width := 600, sizes := "600px" }
    ∧ getAttribute (getSizeElement defaults resizedElem [800] idListener false none).elem.attrs
        "sizes" = some "450px"
    ∧ (getSizeElement defaults resizedElem [800] idListener false none).writes = [] := by
  decide


/-- State of the `rAF` batch executor closure: the `running` and
`waiting` flags, the pending `queue`, plus two observation logs — the
ordered list of operations already executed (operations are named by
tokens) and the number of `requestAnimationFrame` requests issued. -/
structure RAFState where
  running : Bool
  waiting : Bool
  queue : List Nat
  executed : List Nat
  frameRequests : Nat
deriving DecidableEq

/-- The returned scheduling function of `rAF`: when a batch is running,
execute the operation synchronously inline; otherwise push it onto the
queue and, when no flush is waiting, set `waiting` and request an
animation frame. -/
def rAFSchedule (s : RAFState) (fn : Nat) : RAFState :=
  if s.running = true then { s with executed := s.executed ++ [fn] }
  else
    let s1 := { s with queue := s.queue ++ [fn] }
    if s1.waiting = false then
      { s1 with
        waiting := true
        frameRequests := s1.frameRequests + 1 }
    else s1

/-- The drain loop of `run`:
`while (queue.length) { const fn = queue.shift(); fn(); }` — shift the
queue in FIFO order, executing each operation. -/
def rAFDrain : List Nat → List Nat → List Nat
  | [], executed => executed
  | fn :: rest, executed => rAFDrain rest (executed ++ [fn])

/-- The `run` callback of `rAF` (fires at the animation frame): set
`running`, clear `waiting`, drain the whole queue, clear `running`. -/
def rAFRun (s : RAFState) : RAFState :=
  { s with
    running := false
    waiting := false
    queue := []
    executed := rAFDrain s.queue s.executed }

/-- The idle batcher with empty logs. -/
def rAFInit : RAFState :=
  { running := false
    waiting := false
    queue := []
    executed := []
    frameRequests := 0 }

/-- Draining appends the queue to the execution log in order. -/
theorem rAFDrain_eq_append (q executed : List Nat) :
    rAFDrain q executed = executed ++ q := by
  induction q generalizing executed with
  | nil => simp [rAFDrain]
  | cons fn rest ih => simp [rAFDrain, ih]

/-- Scheduling while idle-but-waiting only grows the queue. -/
theorem rAFSchedule_foldl_waiting (fns : List Nat) (s : RAFState)
    (hr : s.running = false) (hw : s.waiting = true) :
    List.foldl rAFSchedule s fns = { s with queue := s.queue ++ fns } := by
  induction fns generalizing s with
  | nil => simp
  | cons fn rest ih =>
    have hstep : rAFSchedule s fn = { s with queue := s.queue ++ [fn] } := by
      unfold rAFSchedule
      simp [hr, hw]
    rw [List.foldl_cons, hstep]
    have hrec := ih { s with queue := s.queue ++ [fn] } hr hw
    rw [hrec]
    simp

/-- Claim C7: operations scheduled on the frame batcher within one
synchronous pass, starting from an idle batcher, are all executed by the
single resulting animation-frame flush, in the original scheduling
order, with none dropped, and exactly one animation frame is requested
for the whole pass; moreover an operation scheduled while a batch is
executing (`running`) runs synchronously inline instead of being
queued. -/
theorem C7_frame_batcher_fifo (fns : List Nat) (s0 : RAFState)
    (hr : s0.running = false) (hw : s0.waiting = false) (hq : s0.queue = [])
    (hne : fns ≠ []) :
    (rAFRun (List.foldl rAFSchedule s0 fns)).executed = s0.executed ++ fns
    ∧ (rAFRun (List.foldl rAFSchedule s0 fns)).queue = []
    ∧ (List.foldl rAFSchedule s0 fns).frameRequests = s0.frameRequests + 1
    ∧ (∀ s fn, s.running = true →
        rAFSchedule s fn = { s with executed := s.executed ++ [fn] }) := by
  obtain ⟨fn, rest, rfl⟩ : ∃ fn rest, fns = fn :: rest := by
    cases fns with
    | nil => exact absurd rfl hne
    | cons fn rest => exact ⟨fn, rest, rfl⟩
  have hstep : rAFSchedule s0 fn =
      { s0 with
        queue := s0.queue ++ [fn]
        waiting := true
        frameRequests := s0.frameRequests + 1 } := by
    unfold rAFSchedule
    simp [hr, hw]
  have hfold : List.foldl rAFSchedule s0 (fn :: rest) =
      { s0 with
        queue := s0.queue ++ [fn] ++ rest
        waiting := true
        frameRequests := s0.frameRequests + 1 } := by
    rw [List.foldl_cons, hstep]
    exact rAFSchedule_foldl_waiting rest _ hr rfl
  refine ⟨?_, ?_, ?_, ?_⟩
  · rw [hfold]
    simp [rAFRun, rAFDrain_eq_append, hq]
  · rw [hfold]
    rfl
  · rw [hfold]
  · intro s fn hsr
    unfold rAFSchedule
    simp [hsr]

/-- Witness for C7 at a concrete input: three operations scheduled on the
idle batcher all run at the single flush, in order. -/
theorem C7_frame_batcher_fifo_witness :
    (rAFInit.running = false ∧ ([1, 2, 3] : List Nat) ≠ [])
    ∧ ((rAFRun (List.foldl rAFSchedule rAFInit [1, 2, 3])).executed =
        rAFInit.executed ++ [1, 2, 3]
      ∧ (rAFRun (List.foldl rAFSchedule rAFInit [1, 2, 3])).queue = []
      ∧ (List.foldl rAFSchedule rAFInit [1, 2, 3]).frameRequests =
        rAFInit.frameRequests + 1
      ∧ (∀ s fn, s.running = true →
          rAFSchedule s fn = { s with executed := s.executed ++ [fn] })) :=
  ⟨⟨rfl, by decide⟩,
    C7_frame_batcher_fifo [1, 2, 3] rAFInit rfl rfl rfl (by decide)⟩

/-- State of the `debounce` closure: `timestamp` (the absolute time of
the last invocation), `timeout` (modelled as the absolute time the
pending timer will fire, `none` when no timer is pending) and the log of
the absolute times at which the wrapped function ran. -/
structure DebState where
  timestamp : Nat
  timer : Option Nat
  execs : List Nat
deriving DecidableEq

/-- The debounced function returned by `debounce`, invoked at absolute
time `t`: `timestamp = Date.now(); if (!timeout) timeout = setTimeout(later, wait);`. -/
def debInvoke (wait t : Nat) (s : DebState) : DebState :=
  match s.timer with
  | none => { s with timestamp := t, timer := some (t + wait) }
  | some _ => { s with timestamp := t }

/-- The `later` timer-callback chain, started from a pending timer due at
absolute time `T` with last invocation at `ts`: on fire compute
`last = now - timestamp`; when `last < wait` re-arm the timer for
`wait - last` more milliseconds, else clear the timer and run the
wrapped function.  (`window.requestIdleCallback` is modelled as absent,
so `run()` executes at the fire time itself; the idle hand-off could only
delay execution further.)  Fires strictly before `bound` — the time of
the next external event — are processed. -/
def fireFrom (wait bound ts T : Nat) (es : List Nat) : DebState :=
  if _h1 : T < bound then
    if _h2 : T - ts < wait then
      fireFrom wait bound ts (T + (wait - (T - ts))) es
    else { timestamp := ts, timer := none, execs := es ++ [T] }
  else { timestamp := ts, timer := some T, execs := es }
termination_by bound - T
decreasing_by
  simp_wf
  omega

/-- Process every timer fire strictly before time `bound`. -/
def fireUntil (wait bound : Nat) (s : DebState) : DebState :=
  match s.timer with
  | none => s
  | some T => fireFrom wait bound s.timestamp T s.execs

/-- Run the debounced function over a time-ordered list of invocation
times: before each invocation, process the timer fires due before it,
then apply the invocation. -/
def debounceSim (wait : Nat) : DebState → List Nat → DebState
  | s, [] => s
  | s, t :: rest => debounceSim wait (debInvoke wait t (fireUntil wait t s)) rest

/-- Full run of the debounced trigger: start from the pristine closure
state, process all invocations, then let every remaining timer fire (any
bound past the last possible fire time works; `last + wait + 1` is
enough).  Returns the execution-time log of the wrapped function. -/
def debounceRun (wait : Nat) (ts : List Nat) : List Nat :=
  (fireUntil wait (List.getLastD ts 0 + wait + 1)
    (debounceSim wait { timestamp := 0, timer := none, execs := [] } ts)).execs

/-- Unfolding lemma: `fireUntil` on a pending timer defers to `fireFrom`. -/
theorem fireUntil_some (wait bound t T : Nat) (es : List Nat) :
    fireUntil wait bound { timestamp := t, timer := some T, execs := es } =
      fireFrom wait bound t T es := rfl

/-- After the burst is over, the timer chain executes exactly once, at
`wait` milliseconds past the last invocation. -/
theorem fireFrom_final (wait t T : Nat) (es : List Nat)
    (h1 : t ≤ T) (h2 : T ≤ t + wait) :
    fireFrom wait (t + wait + 1) t T es =
      { timestamp := t, timer := none, execs := es ++ [t + wait] } := by
  rw [fireFrom]
  have hb : T < t + wait + 1 := by omega
  rw [dif_pos hb]
  by_cases hlt : T - t < wait
  · rw [dif_pos hlt]
    have hT : T + (wait - (T - t)) = t + wait := by omega
    rw [hT, fireFrom]
    have hb2 : t + wait < t + wait + 1 := by omega
    rw [dif_pos hb2]
    have hge : ¬ (t + wait - t < wait) := by omega
    rw [dif_neg hge]
  · rw [dif_neg hlt]
    have hTeq : T = t + wait := by omega
    rw [hTeq]

/-- In the middle of a burst (the next invocation `tn` comes less than
`wait` after the current `timestamp` `t`), the timer chain never runs the
wrapped function: it fires at most once before `tn` and re-arms to
`t + wait`, leaving a pending timer between `tn` and `t + wait`. -/
theorem fireFrom_midburst (wait t T tn : Nat) (es : List Nat)
    (h1 : t ≤ T) (h2 : T ≤ t + wait) (h3 : t ≤ tn) (h4 : tn - t < wait) :
    ∃ Tn, fireFrom wait tn t T es =
        { timestamp := t, timer := some Tn, execs := es }
      ∧ tn ≤ Tn ∧ Tn ≤ t + wait := by
  by_cases hb : T < tn
  · rw [fireFrom, dif_pos hb]
    have hlt : T - t < wait := by omega
    rw [dif_pos hlt]
    have hT : T + (wait - (T - t)) = t + wait := by omega
    rw [hT, fireFrom]
    have hb2 : ¬ (t + wait < tn) := by omega
    rw [dif_neg hb2]
    exact ⟨t + wait, rfl, by omega, Nat.le_refl _⟩
  · rw [fireFrom, dif_neg hb]
    exact ⟨T, rfl, by omega, h2⟩

/-- Invariant of a burst: starting right after an invocation at `t` with
a pending timer `T` between `t` and `t + wait` and an empty execution
log suffix, processing the remaining burst invocations and then letting
the timer chain drain executes the wrapped function exactly once, at
`wait` past the last invocation. -/
theorem debounce_burst_aux (wait : Nat) (rest : List Nat) :
    ∀ (t T : Nat) (es : List Nat), t ≤ T → T ≤ t + wait →
      List.Chain' (fun a b => a ≤ b ∧ b - a < wait) (t :: rest) →
      fireUntil wait (List.getLastD rest t + wait + 1)
          (debounceSim wait { timestamp := t, timer := some T, execs := es } rest) =
        { timestamp := List.getLastD rest t, timer := none,
          execs := es ++ [List.getLastD rest t + wait] } := by
  induction rest with
  | nil =>
    intro t T es h1 h2 _
    show fireUntil wait (t + wait + 1)
        { timestamp := t, timer := some T, execs := es } = _
    rw [fireUntil_some]
    exact fireFrom_final wait t T es h1 h2
  | cons t2 rest2 ih =>
    intro t T es h1 h2 hchain
    obtain ⟨⟨hle, hgap⟩, hchain2⟩ := List.chain'_cons.mp hchain
    show fireUntil wait (List.getLastD (t2 :: rest2) t + wait + 1)
        (debounceSim wait
          (debInvoke wait t2
            (fireUntil wait t2 { timestamp := t, timer := some T, execs := es }))
          rest2) = _
    rw [fireUntil_some]
    obtain ⟨Tn, hfu, hTn1, hTn2⟩ := fireFrom_midburst wait t T t2 es h1 h2 hle hgap
    rw [hfu]
    have hinv : debInvoke wait t2 { timestamp := t, timer := some Tn, execs := es } =
        { timestamp := t2, timer := some Tn, execs := es } := rfl
    rw [hinv]
    have hT2 : Tn ≤ t2 + wait := by omega
    have hrec := ih t2 Tn es hTn1 hT2 hchain2
    rw [List.getLastD_cons]
    exact hrec

/-- Coalescing of the debounce machinery at a fixed captured delay
`wait`: a nonempty burst whose consecutive invocations are closer
together than `wait` produces exactly one execution of the wrapped
function, exactly `wait` after the last invocation of the burst. -/
theorem debounceRun_burst (wait t : Nat) (rest : List Nat)
    (hchain : List.Chain' (fun a b => a ≤ b ∧ b - a < wait) (t :: rest)) :
    debounceRun wait (t :: rest) = [List.getLastD rest t + wait] := by
  unfold debounceRun
  show (fireUntil wait (List.getLastD (t :: rest) 0 + wait + 1)
      (debounceSim wait
        (debInvoke wait t
          (fireUntil wait t { timestamp := 0, timer := none, execs := [] }))
        rest)).execs = _
  have hinv : debInvoke wait t
      (fireUntil wait t { timestamp := 0, timer := none, execs := [] }) =
      { timestamp := t, timer := some (t + wait), execs := [] } := rfl
  rw [hinv, List.getLastD_cons]
  rw [debounce_burst_aux wait rest t (t + wait) [] (by omega) (Nat.le_refl _) hchain]
  simp

/-- The delay the debounced resize trigger actually runs with.  In the
source, `const debouncedUpdate = debounce(updateElementsSizes)` (line
586) executes at module evaluation, and `debounce` captures
`const wait = config.resizeDebounce` (line 364) while `config` is still
the pristine `{ ...defaults }` copy (line 327): `initConfig()` runs only
later, inside `init()` (line 619), and reassigns `config`, which cannot
change the already-captured `wait`.  The trigger therefore always uses
the default delay, whatever `window.autoSizesConfig` holds. -/
def debouncedUpdateWait : Nat := defaults.resizeDebounce

/-- Override object of the counterexample:
`window.autoSizesConfig = { resizeDebounce: 500 }`. -/
def overrides500 : UserConfig :=
  { targetElementClass := none
    processedElementClass := none
    sizesAttr := none
    minSize := none
    init := none
    resizeDebounce := some 500 }

/-- Claim C6 refuted as stated: with the user override
`resizeDebounce: 500` the merged configuration's delay is 500, and the
burst at times 0 and 200 has its gap below that configured delay; yet
the debounced trigger — whose `wait` was captured as the default 99
before the merge — executes the wrapped pass twice, at times 99 and
299, and the first execution comes well before 200 + 500.  So under
this merged configuration the claimed "exactly one execution, no
earlier than `resizeDebounce` after the last invocation" fails. -/
theorem C6_configured_delay_counterexample :
    (initConfig overrides500).resizeDebounce = 500
    ∧ List.Chain'
        (fun a b => a ≤ b ∧ b - a < (initConfig overrides500).resizeDebounce) [0, 200]
    ∧ debounceRun debouncedUpdateWait [0, 200] = [99, 299]
    ∧ (debounceRun debouncedUpdateWait [0, 200]).length ≠ 1
    ∧ 99 < 200 + (initConfig overrides500).resizeDebounce := by
  have hfire1 : fireUntil 99 200 { timestamp := 0, timer := some 99, execs := [] } =
      { timestamp := 0, timer := none, execs := [99] } := by
    rw [fireUntil_some, fireFrom]
    rw [dif_pos (by decide : (99 : Nat) < 200)]
    rw [dif_neg (by decide : ¬ ((99 : Nat) - 0 < 99))]
    rfl
  have hfire2 : fireUntil 99 300 { timestamp := 200, timer := some 299, execs := [99] } =
      { timestamp := 200, timer := none, execs := [99, 299] } := by
    rw [fireUntil_some, fireFrom]
    rw [dif_pos (by decide : (299 : Nat) < 300)]
    rw [dif_neg (by decide : ¬ ((299 : Nat) - 200 < 99))]
    rfl
  have hrun : debounceRun debouncedUpdateWait [0, 200] = [99, 299] := by
    show (fireUntil 99 300
        (debounceSim 99
          (debInvoke 99 0
            (fireUntil 99 0 { timestamp := 0, timer := none, execs := [] }))
          [200])).execs = [99, 299]
    have h0 : debInvoke 99 0
        (fireUntil 99 0 { timestamp := 0, timer := none, execs := [] }) =
        { timestamp := 0, timer := some 99, execs := [] } := rfl
    rw [h0]
    show (fireUntil 99 300
        (debInvoke 99 200
          (fireUntil 99 200 { timestamp := 0, timer := some 99, execs := [] }))).execs
      = [99, 299]
    rw [hfire1]
    have h200 : debInvoke 99 200 { timestamp := 0, timer := none, execs := [99] } =
        { timestamp := 200, timer := some 299, execs := [99] } := rfl
    rw [h200, hfire2]
  refine ⟨by decide, ?_, hrun, ?_, by decide⟩
  · simp [List.chain'_cons, initConfig, overrides500, defaults]
  · rw [hrun]
    decide

/-- Claim C6 (amended): the debounced resize trigger always runs with
the delay captured at module evaluation — `defaults.resizeDebounce`,
99 ms — independently of the merged configuration, because
`debounce(updateElementsSizes)` reads `config.resizeDebounce` before
`initConfig()` reassigns `config`.  For every burst of invocations whose
consecutive gaps are below that captured delay, exactly one execution of
the wrapped update pass occurs, exactly (hence no earlier than) that
delay after the last invocation of the burst. -/
theorem C6_debounce_coalescing_amended (t : Nat) (rest : List Nat)
    (hchain : List.Chain'
      (fun a b => a ≤ b ∧ b - a < debouncedUpdateWait) (t :: rest)) :
    debouncedUpdateWait = defaults.resizeDebounce
    ∧ debounceRun debouncedUpdateWait (t :: rest) =
      [List.getLastD rest t + debouncedUpdateWait] :=
  ⟨rfl, debounceRun_burst debouncedUpdateWait t rest hchain⟩

/-- Witness for the amended C6 at a concrete input: three resize
invocations at times 0, 50 and 120 under the captured 99 ms delay
coalesce into one execution at time 219. -/
theorem C6_debounce_coalescing_amended_witness :
    List.Chain'
      (fun a b => a ≤ b ∧ b - a < debouncedUpdateWait) [0, 50, 120]
    ∧ (debouncedUpdateWait = defaults.resizeDebounce
      ∧ debounceRun debouncedUpdateWait [0, 50, 120] =
        [List.getLastD [50, 120] 0 + debouncedUpdateWait]) :=
  ⟨by simp [List.chain'_cons, debouncedUpdateWait, defaults],
    C6_debounce_coalescing_amended 0 [50, 120]
      (by simp [List.chain'_cons, debouncedUpdateWait, defaults])⟩
